import Mathlib

/-!
Verification of `authentik-enum` (file `authentik-enum.py`) against its
natural-language specification.

The Python program is embedded shallowly:

* Python strings are Lean `String`s, but every string operation the program
  uses (`str.strip`, `str.rstrip("/")`, `re.sub("^...", "", s)`,
  `str.split(",")`) is re-implemented over the underlying character list with
  Python's semantics, so that all definitions reduce in the kernel.
* The network is a pure "world" function: for the GitHub index, a map from
  URL to an optional `Page` (`none` models any exception raised while
  fetching — `HTTPError` or a transport error, both of which the source
  re-raises); for probing, a map from URL to a `TransportResult`.
* The `while url:` pagination loop is given explicit fuel; running out of
  fuel models non-termination and is distinguished from every normal result.
* Observable side effects that the spec talks about (progress reports, page
  fetches, probes, inter-probe sleeps) are recorded as explicit event lists.
* Python floats used only for `args.sleep` comparisons are modelled as `ℚ`.
-/

/-- The characters Python's `str.strip()` removes (ASCII subset, which is all
the program ever meets: tag names and URLs). -/
def pyIsSpace (c : Char) : Bool :=
  c == ' ' || c == '\t' || c == '\n' || c == '\r' || c == '\x0b' || c == '\x0c'

/-- Python `str.strip()` on the character list: drop the leading whitespace
run, then the trailing whitespace run. -/
def pyStripChars (cs : List Char) : List Char :=
  List.rdropWhile pyIsSpace (cs.dropWhile pyIsSpace)

/-- Python `str.strip()`. -/
def pyStrip (s : String) : String := String.mk (pyStripChars s.data)

/-- Python `str.rstrip("/")`: drop the trailing run of slashes. -/
def pyRstripSlash (s : String) : String :=
  String.mk (List.rdropWhile (fun c => c == '/') s.data)

/-- Python `s.startswith(p)` / the test performed by `re.match("^" + p, s)`
for a literal pattern `p`. -/
def pyStartsWith (s p : String) : Bool := p.data.isPrefixOf s.data

/-- `re.sub("^" ++ pat, "", s)` for a literal pattern `pat`: remove one
leading occurrence of `pat` if present. -/
def reSubStart (pat s : String) : String :=
  if pyStartsWith s pat then String.mk (s.data.drop pat.data.length) else s

/-- Python `tag or ""` applied to an optional string (`rel.get("tag_name")`
yields `None` when the field is missing): `None` and `""` both give `""`. -/
def pyOrEmpty (t : Option String) : String :=
  match t with
  | none => ""
  | some s => s

/-- `normalize_tag` from the source:
`tag = (tag or "").strip()`, then `re.sub(r"^version/", "", tag)`, then
`re.sub(r"^v", "", tag)`.  The argument is `Option String` because the one
call site passes `rel.get("tag_name")`, which may be `None`. -/
def normalize_tag (tag : Option String) : String :=
  let t := pyStrip (pyOrEmpty tag)
  let t := reSubStart "version/" t
  let t := reSubStart "v" t
  t

/-- Match one comma-separated part of a `Link` header against the pattern
`^<([^>]+)>;\s*rel="([^"]+)"$` (after the part has been stripped), returning
`(rel, url)` on success. -/
def matchLinkPart (part : List Char) : Option (String × String) :=
  match part with
  | '<' :: rest =>
    let url := rest.takeWhile (fun c => c != '>')
    if url.isEmpty then none
    else
      match rest.drop url.length with
      | '>' :: ';' :: rest2 =>
        let rest3 := rest2.dropWhile pyIsSpace
        if ['r', 'e', 'l', '=', '"'].isPrefixOf rest3 then
          let rest4 := rest3.drop 5
          let relName := rest4.takeWhile (fun c => c != '"')
          if relName.isEmpty then none
          else
            match rest4.drop relName.length with
            | ['"'] => some (String.mk relName, String.mk url)
            | _ => none
        else none
      | _ => none
  | _ => none

/-- Python `dict` assignment `out[rel] = url`: overwrite an existing key in
place, otherwise append (insertion order preserved). -/
def dictInsert (d : List (String × String)) (k v : String) :
    List (String × String) :=
  if d.any (fun p => p.1 == k) then
    d.map (fun p => if p.1 == k then (k, v) else p)
  else d ++ [(k, v)]

/-- Python `d.get(k, dflt)`. -/
def dictGetD (d : List (String × String)) (k dflt : String) : String :=
  match d.find? (fun p => p.1 == k) with
  | some p => p.2
  | none => dflt

/-- `parse_link_header` from the source: split on `","`, strip each part,
match it against `<url>; rel="name"`, and collect matches into a dict. -/
def parse_link_header (link : String) : List (String × String) :=
  (link.data.splitOn ',').foldl
    (fun out part =>
      match matchLinkPart (pyStripChars part) with
      | some (rel, url) => dictInsert out rel url
      | none => out)
    []

/-- One page of the release index as the program consumes it: the
`tag_name` field of each release record in the JSON body (`none` when the
record has no such field), and the raw `Link` response header
(`resp.headers.get("Link") or ""` — an absent header is the empty string). -/
structure Page where
  records : List (Option String)
  linkHeader : String

/-- The body of `for rel in data:` inside `github_fetch_release_tags`:
normalize each record's tag, skip it when the result is empty or already
seen, otherwise record it in both `seen` and `versions`.  The Python `set`
`seen` is modelled as a list used only through membership. -/
def collect_tags : List (Option String) → List String → List String →
    List String × List String
  | [], versions, seen => (versions, seen)
  | r :: rs, versions, seen =>
    let tag := normalize_tag r
    if tag == "" || seen.contains tag then collect_tags rs versions seen
    else collect_tags rs (versions ++ [tag]) (tag :: seen)

/-- Observable events of the enumeration phase: the `ui.update` call at the
top of the `while url:` loop (page index and `len(versions)` collected so
far) and the page fetch itself. -/
inductive EnumEvent where
  | report (page : Nat) (collected : Nat)
  | fetch (url : String)
deriving DecidableEq

/-- The `while url:` loop of `github_fetch_release_tags`, with explicit fuel.
Per iteration, in source order: `ui.update` (the report event), the GET
(the fetch event, `none` result modelling a raised exception, which the
source re-raises after printing diagnostics), the record-collection loop,
and extraction of the next URL via
`parse_link_header(link).get("next", "")`.  The loop continues while the
URL is a non-empty string.  Result `none` means the fuel ran out. -/
def fetch_loop (world : String → Option Page) :
    Nat → String → Nat → List String → List String →
    Option (Except Unit (List String)) × List EnumEvent
  | 0, url, _, versions, _ =>
    if url = "" then (some (Except.ok versions), []) else (none, [])
  | fuel + 1, url, page, versions, seen =>
    if url = "" then (some (Except.ok versions), [])
    else
      match world url with
      | none =>
        (some (Except.error ()), [EnumEvent.report page versions.length,
                                  EnumEvent.fetch url])
      | some p =>
        let vs := collect_tags p.records versions seen
        let next := dictGetD (parse_link_header p.linkHeader) "next" ""
        let r := fetch_loop world fuel next (page + 1) vs.1 vs.2
        (r.1, EnumEvent.report page versions.length ::
              EnumEvent.fetch url :: r.2)

/-- `github_fetch_release_tags`, from the first-page URL built from the repo
identifier (`per_page=100&page=1`), starting at page 1 with empty
`versions` and `seen`. -/
def github_fetch_release_tags (world : String → Option Page) (repo : String)
    (fuel : Nat) : Option (Except Unit (List String)) × List EnumEvent :=
  fetch_loop world fuel
    ("https://api.github.com/repos/" ++ repo ++ "/releases?per_page=100&page=1")
    1 [] []

/-- Outcome of the one transport call inside `probe_url_status`:
a response with a status code, a raised `urllib.error.HTTPError` whose
`code` attribute may be absent or `None`, or any other raised exception
(`URLError`, `TimeoutError`, ...). -/
inductive TransportResult where
  | response (status : Nat)
  | httpError (code : Option Nat)
  | transportError

/-- `probe_url_status` from the source: the status of a successful response;
`int(getattr(e, "code", 0) or 0)` for an `HTTPError`; `0` for every other
exception.  Total by construction — no outcome escapes as an error. -/
def probe_url_status (world : String → TransportResult) (url : String) : Nat :=
  match world url with
  | TransportResult.response s => s
  | TransportResult.httpError c => c.getD 0
  | TransportResult.transportError => 0

/-- `status in (200, 206)` — the hit test of the probe loop. -/
def isHitStatus (s : Nat) : Bool := s == 200 || s == 206

/-- The probe URL built in the loop body:
`f"{base_url}/static/dist/admin/AdminInterface-{ver}.js"`. -/
def probeUrl (base_url ver : String) : String :=
  base_url ++ "/static/dist/admin/AdminInterface-" ++ ver ++ ".js"

/-- Observable events of the probing phase: one probe per loop iteration
(candidate and the status it returned) and each `time.sleep(args.sleep)`. -/
inductive SearchEvent where
  | probe (ver : String) (status : Nat)
  | sleep (d : ℚ)
deriving DecidableEq

/-- The `for i, ver in enumerate(versions, ...)` probe loop of `main`,
returning `(found, checked, events)`.  Source order within an iteration:
probe, `checked += 1`, on a hit append to `found` and — when not `--all` —
`break` (which skips the trailing sleep), then
`if args.sleep > 0: time.sleep(args.sleep)`. -/
def search_loop (world : String → TransportResult) (base_url : String)
    (all : Bool) (sleepDur : ℚ) :
    List String → List (String × String × Nat) → Nat →
    List (String × String × Nat) × Nat × List SearchEvent
  | [], found, checked => (found, checked, [])
  | ver :: rest, found, checked =>
    let url := probeUrl base_url ver
    let status := probe_url_status world url
    let sleepEvs : List SearchEvent :=
      if 0 < sleepDur then [SearchEvent.sleep sleepDur] else []
    if isHitStatus status then
      let found' := found ++ [(ver, url, status)]
      if !all then (found', checked + 1, [SearchEvent.probe ver status])
      else
        let r := search_loop world base_url all sleepDur rest found' (checked + 1)
        (r.1, r.2.1, SearchEvent.probe ver status :: (sleepEvs ++ r.2.2))
    else
      let r := search_loop world base_url all sleepDur rest found (checked + 1)
      (r.1, r.2.1, SearchEvent.probe ver status :: (sleepEvs ++ r.2.2))

/-- The CLI arguments that influence control flow. -/
structure Args where
  base_url : Option String
  repo : String
  all : Bool
  sleep : ℚ

/-- Base-URL resolution at the top of `main`:
`(args.base_url or "").strip()`, falling back to `input(...).strip()` when
empty, then `rstrip("/")`. -/
def resolve_base (argBase : Option String) (inputLine : String) : String :=
  let b := pyStrip (pyOrEmpty argBase)
  let b := if b = "" then pyStrip inputLine else b
  pyRstripSlash b

/-- `main` from the source, as a function of the two worlds, the prompt
reply, and pagination fuel.  Returns the exit code and the probe-phase
events; `none` models a pagination chain that never ends.  Branches in
source order: empty base URL → 2; exception from
`github_fetch_release_tags` → 1; `not versions` → 1 before any probe;
otherwise run the probe loop and return 3 on an empty `found`, else 0. -/
def main_run (args : Args) (inputLine : String)
    (ghWorld : String → Option Page) (fuel : Nat)
    (probeWorld : String → TransportResult) :
    Option (Nat × List SearchEvent) :=
  let base_url := resolve_base args.base_url inputLine
  if base_url = "" then some (2, [])
  else
    match (github_fetch_release_tags ghWorld args.repo fuel).1 with
    | none => none
    | some (Except.error _) => some (1, [])
    | some (Except.ok versions) =>
      if versions = [] then some (1, [])
      else
        let r := search_loop probeWorld base_url args.all args.sleep versions [] 0
        if r.1 = [] then some (3, r.2.2) else some (0, r.2.2)

/-- Modelled from the spec: the dedup invariant's reference form — "each
normalized value appears exactly once, at the position of its first
occurrence"; later duplicates are removed, the order of everything else is
untouched. -/
def specFirstOccurrences : List String → List String
  | [] => []
  | t :: rest => t :: specFirstOccurrences (rest.filter (fun u => u != t))
termination_by l => l.length
decreasing_by
  simp only [List.length_cons]
  exact Nat.lt_succ_of_le (List.length_filter_le _ _)

/-- The tag-collection loop of `collect_tags` stripped of the `versions`
accumulator: the list of tags a run starting from a given `seen` set will
append.  Used to relate `collect_tags` to `specFirstOccurrences`. -/
def collectAux (seen : List String) : List String → List String
  | [] => []
  | t :: ts =>
    if t == "" || seen.contains t then collectAux seen ts
    else t :: collectAux (t :: seen) ts

/-- Shape of a probe-phase event trace in which every probe is immediately
followed by a sleep of length `d`, except that a trace may end with a
single hit probe when the mode is non-exhaustive (the `break` that skips
the final sleep). -/
def probeThenSleep (d : ℚ) (all : Bool) : List SearchEvent → Bool
  | [] => true
  | [SearchEvent.probe _ s] => isHitStatus s && !all
  | SearchEvent.probe _ _ :: SearchEvent.sleep d' :: rest =>
    (d' == d) && probeThenSleep d all rest
  | _ => false

/-- Shape of an enumeration-phase event trace: progress reports and page
fetches strictly alternate, each report immediately preceding its page's
fetch. -/
def reportThenFetch : List EnumEvent → Bool
  | [] => true
  | EnumEvent.report _ _ :: EnumEvent.fetch _ :: rest => reportThenFetch rest
  | _ => false

/-- Python's `str.strip()` is idempotent (character-list form). -/
theorem pyStripChars_idem (cs : List Char) :
    pyStripChars (pyStripChars cs) = pyStripChars cs := by
  unfold pyStripChars
  have hA := List.dropWhile_idempotent pyIsSpace cs
  have hdrop : List.dropWhile pyIsSpace
      (List.rdropWhile pyIsSpace (List.dropWhile pyIsSpace cs)) =
      List.rdropWhile pyIsSpace (List.dropWhile pyIsSpace cs) := by
    obtain ⟨t, ht⟩ := List.rdropWhile_prefix pyIsSpace (List.dropWhile pyIsSpace cs)
    cases hB : List.rdropWhile pyIsSpace (List.dropWhile pyIsSpace cs) with
    | nil => simp
    | cons b B' =>
      rw [hB] at ht
      rw [List.cons_append] at ht
      have hpb : pyIsSpace b = false := by
        by_contra hc
        rw [Bool.not_eq_false] at hc
        rw [← ht, List.dropWhile_cons_of_pos hc] at hA
        have hlen := congrArg List.length hA
        have hle := (List.dropWhile_sublist (l := B' ++ t) pyIsSpace).length_le
        rw [List.length_append] at hle
        simp at hlen
        omega
      exact List.dropWhile_cons_of_neg (by simp [hpb])
  rw [hdrop, List.rdropWhile_idempotent]

/-- Python's `str.strip()` is idempotent. -/
theorem pyStrip_idem (t : String) : pyStrip (pyStrip t) = pyStrip t := by
  show String.mk (pyStripChars (String.mk (pyStripChars t.data)).data) =
    String.mk (pyStripChars t.data)
  exact congrArg String.mk (pyStripChars_idem t.data)

/-- The `versions` list built by `collect_tags` is the starting list
extended by `collectAux` over the normalized tags. -/
theorem collect_tags_fst (rs : List (Option String)) :
    ∀ versions seen, (collect_tags rs versions seen).1 =
      versions ++ collectAux seen (rs.map normalize_tag) := by
  induction rs with
  | nil => intro v s; simp [collect_tags, collectAux]
  | cons r rs ih =>
    intro v s
    simp only [collect_tags, List.map_cons, collectAux]
    cases h : (normalize_tag r == "" || s.contains (normalize_tag r)) with
    | true => simp [h, ih]
    | false => simp [h, ih, List.append_assoc]

/-- `collectAux` keeps exactly the first occurrence of each non-empty,
not-yet-seen value. -/
theorem collectAux_eq_spec (ts : List String) :
    ∀ seen, collectAux seen ts =
      specFirstOccurrences
        (ts.filter (fun u => !(u == "") && !(seen.contains u))) := by
  induction ts with
  | nil => intro _; simp [collectAux, specFirstOccurrences]
  | cons t ts ih =>
    intro seen
    cases h : (t == "" || seen.contains t) with
    | true =>
      have hq : ¬ ((fun u => !(u == "") && !(seen.contains u)) t) = true := by
        show ¬ (!(t == "") && !(seen.contains t)) = true
        cases h1 : (t == "") <;> cases h2 : seen.contains t <;> simp_all
      simp only [collectAux, h, if_true]
      rw [List.filter_cons_of_neg (p := fun u => !(u == "") && !(seen.contains u)) hq, ih]
    | false =>
      have h1 : (t == "") = false := by
        cases h1 : (t == "") <;> simp_all
      have h2 : (seen.contains t) = false := by
        cases h2 : seen.contains t <;> simp_all
      have hq : ((fun u => !(u == "") && !(seen.contains u)) t) = true := by
        show (!(t == "") && !(seen.contains t)) = true
        rw [h1, h2]
        decide
      simp only [collectAux, h, Bool.false_eq_true, if_false]
      rw [List.filter_cons_of_pos (p := fun u => !(u == "") && !(seen.contains u)) hq]
      rw [specFirstOccurrences, List.filter_filter, ih (t :: seen)]
      congr 1
      congr 1
      apply List.filter_congr
      intro u _
      simp only [List.contains_cons, bne]
      cases hu1 : (u == "") <;> cases hu2 : (u == t) <;>
        cases hu3 : seen.contains u <;> rfl

/-- Every entry of the hit list produced by the probe loop was either in
the starting accumulator or has a success status. -/
theorem search_loop_found_mem (world : String → TransportResult)
    (base_url : String) (all : Bool) (d : ℚ) :
    ∀ (versions : List String) (found : List (String × String × Nat))
      (checked : Nat) (x : String × String × Nat),
      x ∈ (search_loop world base_url all d versions found checked).1 →
      x ∈ found ∨ isHitStatus x.2.2 = true := by
  intro versions
  induction versions with
  | nil =>
    intro found checked x hx
    exact Or.inl hx
  | cons v rest ih =>
    intro found checked x hx
    simp only [search_loop] at hx
    cases hs : isHitStatus (probe_url_status world (probeUrl base_url v)) with
    | false =>
      rw [hs] at hx
      simp only [Bool.false_eq_true, if_false] at hx
      exact ih found (checked + 1) x hx
    | true =>
      rw [hs] at hx
      simp only [if_true] at hx
      cases hall : (!all) with
      | true =>
        rw [hall] at hx
        simp only [if_true] at hx
        rcases List.mem_append.mp hx with h | h
        · exact Or.inl h
        · right
          rcases List.mem_singleton.mp h with rfl
          exact hs
      | false =>
        rw [hall] at hx
        simp only [Bool.false_eq_true, if_false] at hx
        rcases ih (found ++ [(v, probeUrl base_url v,
            probe_url_status world (probeUrl base_url v))]) (checked + 1) x hx with h | h
        · rcases List.mem_append.mp h with h' | h'
          · exact Or.inl h'
          · right
            rcases List.mem_singleton.mp h' with rfl
            exact hs
        · exact Or.inr h

/-- An empty URL ends the pagination loop at once, for any fuel. -/
theorem fetch_loop_nil_url (world : String → Option Page) (fuel : Nat)
    (page : Nat) (versions seen : List String) :
    fetch_loop world fuel "" page versions seen =
      (some (Except.ok versions), []) := by
  cases fuel <;> simp [fetch_loop]

/-- Example probe world shared by the search-loop witnesses: candidate `b`'s
resource answers 200, candidate `c`'s answers 206, every other URL is a 404
`HTTPError`. -/
def exampleProbeWorld : String → TransportResult := fun u =>
  if u = probeUrl "http://t" "b" then TransportResult.response 200
  else if u = probeUrl "http://t" "c" then TransportResult.response 206
  else TransportResult.httpError (some 404)

/-- C1: in non-exhaustive (default) mode the probe loop visits candidates in
enumeration order and stops immediately after the first success probe: for
candidates `[a, b, c]` where `a` probes 404 (absent) and `b` probes success
(200 or 206), the result is the hit list `[b]`, two candidates checked, and
an event trace containing probes of `a` and `b` only — `c` is never
probed. -/
theorem C1_nonexhaustive_early_exit :
    ∀ (world : String → TransportResult) (base a b c : String) (d : ℚ),
      probe_url_status world (probeUrl base a) = 404 →
      isHitStatus (probe_url_status world (probeUrl base b)) = true →
      search_loop world base false d [a, b, c] [] 0 =
        ([(b, probeUrl base b, probe_url_status world (probeUrl base b))], 2,
         SearchEvent.probe a 404 ::
           ((if 0 < d then [SearchEvent.sleep d] else []) ++
            [SearchEvent.probe b (probe_url_status world (probeUrl base b))])) := by
  intro world base a b c d ha hb
  have h404 : isHitStatus 404 = false := by decide
  simp only [search_loop, ha, hb, h404, Bool.false_eq_true, if_false, if_true,
    Bool.not_false, List.nil_append]

/-- C1 witness: the early-exit theorem instantiated at a concrete world. -/
theorem C1_nonexhaustive_early_exit_witness :
    probe_url_status exampleProbeWorld (probeUrl "http://t" "a") = 404 ∧
    isHitStatus (probe_url_status exampleProbeWorld (probeUrl "http://t" "b")) = true ∧
    search_loop exampleProbeWorld "http://t" false 0 ["a", "b", "c"] [] 0 =
      ([("b", probeUrl "http://t" "b", 200)], 2,
       [SearchEvent.probe "a" 404, SearchEvent.probe "b" 200]) := by
  refine ⟨by decide, by decide, ?_⟩
  rw [C1_nonexhaustive_early_exit exampleProbeWorld "http://t" "a" "b" "c" 0
    (by decide) (by decide)]
  decide

/-- C2: the enumerator's tag-collection loop, run over any sequence of raw
tags with empty accumulators, produces exactly the non-empty normalized
values deduplicated to their first occurrence, in upstream order. -/
theorem C2_dedup_first_occurrence :
    ∀ raws : List (Option String),
      (collect_tags raws [] []).1 =
        specFirstOccurrences
          ((raws.map normalize_tag).filter (fun t => t != "")) := by
  intro raws
  rw [collect_tags_fst raws [] [], collectAux_eq_spec]
  simp only [List.nil_append]
  congr 1
  apply List.filter_congr
  intro u _
  simp [List.contains_nil, bne]

/-- C3: a transport exception inside the probe is mapped to status 0, which
the hit test rejects; moreover every entry of the hit list built by the
probe loop has a success status, so a network-failure probe is never
counted as a hit.  (In the embedding `probe_url_status` is total by
construction: no outcome of the transport call escapes as an error.) -/
theorem C3_probe_never_raises :
    (∀ (world : String → TransportResult) (url : String),
        world url = TransportResult.transportError →
        probe_url_status world url = 0) ∧
    isHitStatus 0 = false ∧
    (∀ (world : String → TransportResult) (base_url : String) (all : Bool)
        (d : ℚ) (versions : List String) (x : String × String × Nat),
        x ∈ (search_loop world base_url all d versions [] 0).1 →
        isHitStatus x.2.2 = true) := by
  refine ⟨?_, by decide, ?_⟩
  · intro world url h
    simp [probe_url_status, h]
  · intro world base_url all d versions x hx
    rcases search_loop_found_mem world base_url all d versions [] 0 x hx with h | h
    · exact absurd h (List.not_mem_nil x)
    · exact h

/-- C3 witness: a world whose transport call always throws yields probe
status 0, and the hit entry of a concrete run has a success status. -/
theorem C3_probe_never_raises_witness :
    (fun _ : String => TransportResult.transportError) "http://t/x" =
      TransportResult.transportError ∧
    probe_url_status (fun _ => TransportResult.transportError) "http://t/x" = 0 ∧
    ("b", probeUrl "http://t" "b", (200 : Nat)) ∈
      (search_loop exampleProbeWorld "http://t" false 0 ["b"] [] 0).1 ∧
    isHitStatus (("b", probeUrl "http://t" "b", (200 : Nat)) : String × String × Nat).2.2 = true := by
  refine ⟨rfl, C3_probe_never_raises.1 _ "http://t/x" rfl, by decide, ?_⟩
  exact C3_probe_never_raises.2.2 exampleProbeWorld "http://t" false 0 ["b"]
    ("b", probeUrl "http://t" "b", 200) (by decide)

/-- C4: in exhaustive mode every candidate is probed and the hit list is
exactly the success probes in enumeration order, with no re-sorting: for
`[a, b, c]` probing 404, success, success, the hit list is `[b, c]`, three
candidates are checked, and the trace probes `a`, `b`, `c` in order. -/
theorem C4_exhaustive_order_preserved :
    ∀ (world : String → TransportResult) (base a b c : String) (d : ℚ),
      probe_url_status world (probeUrl base a) = 404 →
      isHitStatus (probe_url_status world (probeUrl base b)) = true →
      isHitStatus (probe_url_status world (probeUrl base c)) = true →
      search_loop world base true d [a, b, c] [] 0 =
        ([(b, probeUrl base b, probe_url_status world (probeUrl base b)),
          (c, probeUrl base c, probe_url_status world (probeUrl base c))], 3,
         SearchEvent.probe a 404 ::
           ((if 0 < d then [SearchEvent.sleep d] else []) ++
            (SearchEvent.probe b (probe_url_status world (probeUrl base b)) ::
             ((if 0 < d then [SearchEvent.sleep d] else []) ++
              (SearchEvent.probe c (probe_url_status world (probeUrl base c)) ::
               ((if 0 < d then [SearchEvent.sleep d] else []) ++ [])))))) := by
  intro world base a b c d ha hb hc
  have h404 : isHitStatus 404 = false := by decide
  simp only [search_loop, ha, hb, hc, h404, Bool.false_eq_true, if_false, if_true,
    Bool.not_true, List.nil_append]
  simp

/-- C4 witness: the exhaustive theorem instantiated at a concrete world with
a positive inter-probe delay. -/
theorem C4_exhaustive_order_preserved_witness :
    probe_url_status exampleProbeWorld (probeUrl "http://t" "a") = 404 ∧
    isHitStatus (probe_url_status exampleProbeWorld (probeUrl "http://t" "b")) = true ∧
    isHitStatus (probe_url_status exampleProbeWorld (probeUrl "http://t" "c")) = true ∧
    search_loop exampleProbeWorld "http://t" true 1 ["a", "b", "c"] [] 0 =
      ([("b", probeUrl "http://t" "b", 200), ("c", probeUrl "http://t" "c", 206)], 3,
       [SearchEvent.probe "a" 404, SearchEvent.sleep 1,
        SearchEvent.probe "b" 200, SearchEvent.sleep 1,
        SearchEvent.probe "c" 206, SearchEvent.sleep 1]) := by
  refine ⟨by decide, by decide, by decide, ?_⟩
  rw [C4_exhaustive_order_preserved exampleProbeWorld "http://t" "a" "b" "c" 1
    (by decide) (by decide) (by decide)]
  decide

/-- C5: exit codes of `main`.  An empty resolved base URL exits 2 before
anything else; an exception from enumeration exits 1; an enumeration that
yields zero candidates exits 1 with an empty probe-event trace (no probe is
attempted — a distinct outcome from exit code 3); a run whose probe loop
finds no hit exits 3; a run with at least one hit exits 0. -/
theorem C5_exit_codes :
    ∀ (args : Args) (inputLine : String) (ghWorld : String → Option Page)
      (fuel : Nat) (probeWorld : String → TransportResult),
      (resolve_base args.base_url inputLine = "" →
        main_run args inputLine ghWorld fuel probeWorld = some (2, [])) ∧
      (resolve_base args.base_url inputLine ≠ "" →
        (github_fetch_release_tags ghWorld args.repo fuel).1 =
          some (Except.error ()) →
        main_run args inputLine ghWorld fuel probeWorld = some (1, [])) ∧
      (resolve_base args.base_url inputLine ≠ "" →
        (github_fetch_release_tags ghWorld args.repo fuel).1 =
          some (Except.ok []) →
        main_run args inputLine ghWorld fuel probeWorld = some (1, [])) ∧
      (∀ versions, versions ≠ [] →
        resolve_base args.base_url inputLine ≠ "" →
        (github_fetch_release_tags ghWorld args.repo fuel).1 =
          some (Except.ok versions) →
        ((search_loop probeWorld (resolve_base args.base_url inputLine) args.all
            args.sleep versions [] 0).1 = [] →
          main_run args inputLine ghWorld fuel probeWorld =
            some (3, (search_loop probeWorld (resolve_base args.base_url inputLine)
              args.all args.sleep versions [] 0).2.2)) ∧
        ((search_loop probeWorld (resolve_base args.base_url inputLine) args.all
            args.sleep versions [] 0).1 ≠ [] →
          main_run args inputLine ghWorld fuel probeWorld =
            some (0, (search_loop probeWorld (resolve_base args.base_url inputLine)
              args.all args.sleep versions [] 0).2.2))) := by
  intro args inputLine ghWorld fuel probeWorld
  refine ⟨?_, ?_, ?_, ?_⟩
  · intro h
    simp [main_run, h]
  · intro hb hg
    simp [main_run, if_neg hb, hg]
  · intro hb hg
    simp [main_run, if_neg hb, hg]
  · intro versions hvs hb hg
    constructor
    · intro hempty
      simp [main_run, if_neg hb, hg, if_neg hvs, hempty]
    · intro hnonempty
      simp [main_run, if_neg hb, hg, if_neg hvs, if_neg hnonempty]

/-- C5 witness: one concrete run per exit code — 2 for a base URL that is
all slashes, 1 for a failed fetch, 1 with no probes for an empty candidate
list, 3 for an all-404 target, 0 for a hit. -/
theorem C5_exit_codes_witness :
    main_run ⟨some "/", "goauthentik/authentik", false, 0⟩ ""
      (fun _ => none) 3 (fun _ => TransportResult.response 200) = some (2, []) ∧
    main_run ⟨some "http://t", "r", false, 0⟩ ""
      (fun _ => none) 3 (fun _ => TransportResult.response 200) = some (1, []) ∧
    main_run ⟨some "http://t", "r", false, 0⟩ ""
      (fun _ => some ⟨[], ""⟩) 3 (fun _ => TransportResult.response 200) =
      some (1, []) ∧
    main_run ⟨some "http://t", "r", false, 0⟩ ""
      (fun _ => some ⟨[some "v1.0"], ""⟩) 3
      (fun _ => TransportResult.httpError (some 404)) =
      some (3, [SearchEvent.probe "1.0" 404]) ∧
    main_run ⟨some "http://t", "r", false, 0⟩ ""
      (fun _ => some ⟨[some "v1.0"], ""⟩) 3 (fun _ => TransportResult.response 200) =
      some (0, [SearchEvent.probe "1.0" 200]) := by
  refine ⟨?_, ?_, ?_, ?_, ?_⟩
  · exact (C5_exit_codes ⟨some "/", "goauthentik/authentik", false, 0⟩ ""
      (fun _ => none) 3 (fun _ => TransportResult.response 200)).1 (by decide)
  · exact (C5_exit_codes ⟨some "http://t", "r", false, 0⟩ ""
      (fun _ => none) 3 (fun _ => TransportResult.response 200)).2.1
      (by decide) (by rfl)
  · exact (C5_exit_codes ⟨some "http://t", "r", false, 0⟩ ""
      (fun _ => some ⟨[], ""⟩) 3 (fun _ => TransportResult.response 200)).2.2.1
      (by decide) (by rfl)
  · have h := ((C5_exit_codes ⟨some "http://t", "r", false, 0⟩ ""
      (fun _ => some ⟨[some "v1.0"], ""⟩) 3
      (fun _ => TransportResult.httpError (some 404))).2.2.2 ["1.0"]
      (by decide) (by decide) (by rfl)).1 (by rfl)
    exact h.trans (by rfl)
  · have h := ((C5_exit_codes ⟨some "http://t", "r", false, 0⟩ ""
      (fun _ => some ⟨[some "v1.0"], ""⟩) 3
      (fun _ => TransportResult.response 200)).2.2.2 ["1.0"]
      (by decide) (by decide) (by rfl)).2 (by decide)
    exact h.trans (by rfl)

/-- C6: (a) a fetched page whose `Link` header yields no `next` URL (the
lookup with default `""` returns `""`) ends enumeration right after that
page, whatever its records are — the result is final and the trace shows no
further fetch; (b) a fetched page with zero records but a non-empty `next`
URL does not end enumeration: the loop goes on to fetch that next URL. -/
theorem C6_pagination_termination :
    ∀ (world : String → Option Page) (fuel : Nat) (url : String) (page : Nat)
      (versions seen : List String) (p : Page),
      url ≠ "" → world url = some p →
      (dictGetD (parse_link_header p.linkHeader) "next" "" = "" →
        fetch_loop world (fuel + 1) url page versions seen =
          (some (Except.ok (collect_tags p.records versions seen).1),
           [EnumEvent.report page versions.length, EnumEvent.fetch url])) ∧
      (p.records = [] →
        ∀ next, dictGetD (parse_link_header p.linkHeader) "next" "" = next →
          next ≠ "" →
          ∃ rest,
            (fetch_loop world (fuel + 2) url page versions seen).2 =
              EnumEvent.report page versions.length :: EnumEvent.fetch url ::
              EnumEvent.report (page + 1) versions.length ::
              EnumEvent.fetch next :: rest) := by
  intro world fuel url page versions seen p hurl hw
  constructor
  · intro hnext
    simp only [fetch_loop, if_neg hurl, hw, hnext, fetch_loop_nil_url]
  · intro hrec next hnext hne
    have hcoll : collect_tags p.records versions seen = (versions, seen) := by
      rw [hrec]
      rfl
    simp only [fetch_loop, if_neg hurl, hw, hnext, hcoll, if_neg hne]
    cases hwn : world next with
    | none => exact ⟨[], rfl⟩
    | some q => exact ⟨_, rfl⟩

/-- C6 witness: part (a) on a one-page world with an empty `Link` header;
part (b) on a world whose first page is empty but links to a second URL. -/
theorem C6_pagination_termination_witness :
    fetch_loop (fun u => if u = "u1" then some ⟨[some "v1.0"], ""⟩ else none)
      1 "u1" 1 [] [] =
      (some (Except.ok ["1.0"]), [EnumEvent.report 1 0, EnumEvent.fetch "u1"]) ∧
    (∃ rest,
      (fetch_loop
        (fun u => if u = "u1" then some ⟨[], "<u2>; rel=\"next\""⟩ else none)
        2 "u1" 1 [] []).2 =
        EnumEvent.report 1 0 :: EnumEvent.fetch "u1" ::
        EnumEvent.report 2 0 :: EnumEvent.fetch "u2" :: rest) := by
  constructor
  · have h := (C6_pagination_termination
      (fun u => if u = "u1" then some ⟨[some "v1.0"], ""⟩ else none)
      0 "u1" 1 [] [] ⟨[some "v1.0"], ""⟩ (by decide) (by rfl)).1 (by rfl)
    exact h.trans (by rfl)
  · exact (C6_pagination_termination
      (fun u => if u = "u1" then some ⟨[], "<u2>; rel=\"next\""⟩ else none)
      0 "u1" 1 [] [] ⟨[], "<u2>; rel=\"next\""⟩ (by decide) (by rfl)).2
      rfl "u2" (by rfl) (by decide)

/-- C7 counterexample: the tag `" 1.2.3 "` carries neither a `"version/"`
nor a `"v"` prefix, yet normalization does not return it unchanged — the
claim omits that `normalize_tag` also strips surrounding whitespace. -/
theorem C7_normalize_counterexample :
    pyStartsWith " 1.2.3 " "version/" = false ∧
    pyStartsWith " 1.2.3 " "v" = false ∧
    normalize_tag (some " 1.2.3 ") ≠ " 1.2.3 " :=
  ⟨by decide, by decide, by decide⟩

/-- C7 (amended): normalization strips a leading `"version/"` segment then a
leading `"v"` — `"version/v1.2.3"` and `"v1.2.3"` both yield `"1.2.3"` —
and a tag that carries neither prefix and no surrounding whitespace is
returned unchanged. -/
theorem C7_normalize_amended :
    normalize_tag (some "version/v1.2.3") = "1.2.3" ∧
    normalize_tag (some "v1.2.3") = "1.2.3" ∧
    ∀ t : String, pyStartsWith t "version/" = false →
      pyStartsWith t "v" = false → pyStrip t = t →
      normalize_tag (some t) = t := by
  refine ⟨by decide, by decide, ?_⟩
  intro t h1 h2 h3
  show reSubStart "v" (reSubStart "version/" (pyStrip (pyOrEmpty (some t)))) = t
  show reSubStart "v" (reSubStart "version/" (pyStrip t)) = t
  rw [h3]
  unfold reSubStart
  rw [h1]
  simp only [Bool.false_eq_true, if_false]
  rw [h2]
  simp only [Bool.false_eq_true, if_false]

/-- C7 witness: the amended theorem applied to the prefix-free, whitespace
free tag `"1.2.3"`. -/
theorem C7_normalize_amended_witness :
    pyStartsWith "1.2.3" "version/" = false ∧
    pyStartsWith "1.2.3" "v" = false ∧
    pyStrip "1.2.3" = "1.2.3" ∧
    normalize_tag (some "1.2.3") = "1.2.3" :=
  ⟨by decide, by decide, by decide,
   C7_normalize_amended.2.2 "1.2.3" (by decide) (by decide) (by decide)⟩

/-- C8 counterexample: with a positive inter-probe delay, in non-exhaustive
mode a candidate whose probe is the short-circuiting hit is not followed by
any sleep — the `break` precedes `time.sleep`, so the run's whole event
trace is the single probe and contains no sleep event at all. -/
theorem C8_delay_counterexample :
    (0 : ℚ) < 1 ∧
    (search_loop (fun _ => TransportResult.response 200) "http://target" false 1
        ["2024.8.3"] [] 0).2.2 = [SearchEvent.probe "2024.8.3" 200] ∧
    SearchEvent.sleep 1 ∉
      (search_loop (fun _ => TransportResult.response 200) "http://target" false 1
        ["2024.8.3"] [] 0).2.2 :=
  ⟨by norm_num, by decide, by decide⟩

/-- C8 (amended): when the inter-probe delay is positive, a delay of that
length immediately follows every probe except a probe whose success
short-circuits a non-exhaustive search — the loop breaks before sleeping,
so only a trailing hit probe with `all = false` lacks its sleep. -/
theorem C8_delay_amended :
    ∀ (world : String → TransportResult) (base_url : String) (all : Bool)
      (d : ℚ), 0 < d →
      ∀ (versions : List String) (found : List (String × String × Nat))
        (checked : Nat),
        probeThenSleep d all
          (search_loop world base_url all d versions found checked).2.2 = true := by
  intro world base_url all d hd versions
  induction versions with
  | nil => intro found checked; rfl
  | cons v rest ih =>
    intro found checked
    simp only [search_loop, if_pos hd]
    cases hs : isHitStatus (probe_url_status world (probeUrl base_url v)) with
    | true =>
      cases hall : all with
      | true =>
        rw [hall] at ih
        simp [probeThenSleep, ih]
      | false => simp [probeThenSleep, hs]
    | false => simp [probeThenSleep, ih]

/-- C8 amended witness: an exhaustive run over one candidate with delay 1
produces a trace in which the probe is followed by its sleep. -/
theorem C8_delay_amended_witness :
    (0 : ℚ) < 1 ∧
    probeThenSleep 1 true
      (search_loop (fun _ => TransportResult.response 200) "http://target" true 1
        ["2024.8.3"] [] 0).2.2 = true :=
  ⟨by norm_num,
   C8_delay_amended (fun _ => TransportResult.response 200) "http://target" true 1
     (by norm_num) ["2024.8.3"] [] 0⟩

/-- C9 counterexample: a single-page enumeration run (one record, no `next`
link).  The fetched page contributes the candidate `"1.2.3"`, but the only
progress report in the trace precedes the fetch and carries a count of 0 —
no report at all follows the page fetch, contradicting the claim that
progress is reported after each page fetch with the candidates of the page
just fetched. -/
theorem C9_progress_counterexample :
    github_fetch_release_tags
      (fun u =>
        if u = "https://api.github.com/repos/goauthentik/authentik/releases?per_page=100&page=1"
        then some ⟨[some "v1.2.3"], ""⟩ else none)
      "goauthentik/authentik" 5 =
    (some (Except.ok ["1.2.3"]),
     [EnumEvent.report 1 0,
      EnumEvent.fetch
        "https://api.github.com/repos/goauthentik/authentik/releases?per_page=100&page=1"]) := by
  rfl

/-- C9 (amended): progress is reported immediately before each page fetch —
every trace strictly alternates report-then-fetch — and the report carries
the page index about to be fetched together with the running candidate
count collected from the previously fetched pages. -/
theorem C9_progress_amended :
    ∀ (world : String → Option Page) (fuel : Nat) (url : String) (page : Nat)
      (versions seen : List String),
      reportThenFetch (fetch_loop world fuel url page versions seen).2 = true ∧
      (url ≠ "" → 0 < fuel →
        ∃ rest, (fetch_loop world fuel url page versions seen).2 =
          EnumEvent.report page versions.length :: EnumEvent.fetch url :: rest) := by
  intro world fuel
  induction fuel with
  | zero =>
    intro url page versions seen
    refine ⟨?_, fun _ hf => absurd hf (by omega)⟩
    by_cases h : url = "" <;> simp [fetch_loop, h, reportThenFetch]
  | succ n ih =>
    intro url page versions seen
    by_cases h : url = ""
    · exact ⟨by simp [fetch_loop, h, reportThenFetch], fun hurl => absurd h hurl⟩
    · cases hw : world url with
      | none =>
        refine ⟨by simp [fetch_loop, h, hw, reportThenFetch], ?_⟩
        intro _ _
        exact ⟨[], by simp [fetch_loop, h, hw]⟩
      | some p =>
        have ihshape := fun u pg v s => (ih u pg v s).1
        refine ⟨?_, ?_⟩
        · simp only [fetch_loop, if_neg h, hw]
          simp [reportThenFetch, ihshape]
        · intro _ _
          simp only [fetch_loop, if_neg h, hw]
          exact ⟨_, rfl⟩

/-- C9 amended witness: the alternation and the report-before-fetch shape on
a concrete one-page world. -/
theorem C9_progress_amended_witness :
    reportThenFetch
      (fetch_loop (fun u => if u = "u1" then some ⟨[some "v1.0"], ""⟩ else none)
        1 "u1" 1 [] []).2 = true ∧
    (∃ rest,
      (fetch_loop (fun u => if u = "u1" then some ⟨[some "v1.0"], ""⟩ else none)
        1 "u1" 1 [] []).2 =
        EnumEvent.report 1 0 :: EnumEvent.fetch "u1" :: rest) :=
  ⟨(C9_progress_amended
      (fun u => if u = "u1" then some ⟨[some "v1.0"], ""⟩ else none)
      1 "u1" 1 [] []).1,
   (C9_progress_amended
      (fun u => if u = "u1" then some ⟨[some "v1.0"], ""⟩ else none)
      1 "u1" 1 [] []).2 (by decide) (by omega)⟩

/-- C10 (implicit): normalization pre-processes its input by stripping
surrounding whitespace first (normalizing any tag equals normalizing its
stripped form, and `" v1.2.3 "` yields `"1.2.3"`) and by mapping a missing
(`None`) tag to the empty string, so a release record without a tag field
is skipped by the collection loop and contributes nothing. -/
theorem C10_normalize_preprocessing :
    (∀ t : String, normalize_tag (some t) = normalize_tag (some (pyStrip t))) ∧
    normalize_tag none = "" ∧
    normalize_tag (some " v1.2.3 ") = "1.2.3" ∧
    (∀ (rs : List (Option String)) (versions seen : List String),
        collect_tags (none :: rs) versions seen = collect_tags rs versions seen) := by
  refine ⟨?_, by decide, by decide, ?_⟩
  · intro t
    show reSubStart "v" (reSubStart "version/" (pyStrip (pyOrEmpty (some t)))) =
      reSubStart "v" (reSubStart "version/" (pyStrip (pyOrEmpty (some (pyStrip t)))))
    show reSubStart "v" (reSubStart "version/" (pyStrip t)) =
      reSubStart "v" (reSubStart "version/" (pyStrip (pyStrip t)))
    rw [pyStrip_idem]
  · intro rs versions seen
    show (if normalize_tag none == "" || seen.contains (normalize_tag none)
          then collect_tags rs versions seen
          else collect_tags rs (versions ++ [normalize_tag none])
            (normalize_tag none :: seen)) = collect_tags rs versions seen
    have h0 : normalize_tag none = "" := by decide
    rw [h0]
    simp
